import Mathlib

/-!
# Verification of the Alpha Predator frontend components

Shallow embedding of the pure computations of the Vue components
`StockRecommendation.vue`, `SectorCard.vue` and `SettingsPanel.vue`,
together with spec-modelled definitions for backend pieces
(`PositionSizer.computePrices`, the rule-engine fallback, the
`/api/config/providers` endpoint) that are referenced by the frontend
but whose source is not part of the repository snapshot.

Numbers are modelled as rationals (`ℚ`); JavaScript `undefined`
is modelled as `Option.none`, and the truthiness-based `||` fallback
as `jsOr` (both `undefined` and `0` fall through to the default).
-/

namespace AlphaPredator

/-- JavaScript `x || d` for an optional number `x`: both `undefined`
(`none`) and `0` are falsy, so they fall through to the default. -/
def jsOr (x : Option ℚ) (d : ℚ) : ℚ :=
  match x with
  | none => d
  | some v => if v = 0 then d else v

/-- JavaScript `x || d` for a plain number `x`: `0` is falsy. -/
def jsOrNum (x : ℚ) (d : ℚ) : ℚ :=
  if x = 0 then d else x

/-- `position_strategy` field of a recommendation
(`StockRecommendation.vue`, interface `PositionStrategy`). -/
structure PositionStrategy where
  initial_pct : ℚ
  add_condition : String
  max_pct : ℚ
deriving DecidableEq, Repr

/-- The fields of the `StockRecommendation` TS interface used by the
position-sizing computations (`StockRecommendation.vue`).  Optional
TS fields (`buy_price?`, `position_pct?`, `position_strategy?`)
become `Option`s. -/
structure Stock where
  current_price : ℚ
  buy_price : Option ℚ
  position_pct : Option ℚ
  position_strategy : Option PositionStrategy
deriving DecidableEq, Repr

/-- `props.stock.position_strategy?.initial_pct || props.stock.position_pct || 20`
(`StockRecommendation.vue` line 60). -/
def resolvedPct (stock : Stock) : ℚ :=
  jsOr (stock.position_strategy.map PositionStrategy.initial_pct)
    (jsOr stock.position_pct 20)

/-- `props.stock.buy_price || props.stock.current_price`
(`StockRecommendation.vue` lines 61 and 71). -/
def effectiveBuyPrice (stock : Stock) : ℚ :=
  jsOr stock.buy_price stock.current_price

/-- Core of the `suggestedShares` computed property
(`StockRecommendation.vue` lines 62–66), abstracted over the resolved
position percentage and effective buy price:
`if (!buyPrice || buyPrice <= 0 || availableCapital.value <= 0) return 0`
then `rawShares = (availableCapital * positionPct / 100) / buyPrice`
and `Math.floor(rawShares / 100) * 100`.  (`!buyPrice` is the JS
falsiness test, subsumed by `buyPrice ≤ 0` over `ℚ`.) -/
def computeShares (availableCapital positionPct buyPrice : ℚ) : ℤ :=
  if buyPrice ≤ 0 ∨ availableCapital ≤ 0 then 0
  else
    let rawShares := availableCapital * positionPct / 100 / buyPrice
    ⌊rawShares / 100⌋ * 100

/-- The `suggestedShares` computed property (`StockRecommendation.vue`
lines 59–67). -/
def suggestedShares (availableCapital : ℚ) (stock : Stock) : ℤ :=
  computeShares availableCapital (resolvedPct stock) (effectiveBuyPrice stock)

/-- The `suggestedAmount` computed property (`StockRecommendation.vue`
lines 70–73): `suggestedShares.value * (buyPrice || 0)`. -/
def suggestedAmount (availableCapital : ℚ) (stock : Stock) : ℚ :=
  (suggestedShares availableCapital stock : ℚ) *
    jsOrNum (effectiveBuyPrice stock) 0

/-- The spec's `sizePosition` share formula, written from the spec's
words (§4.4): `shares = floor(floor(availableCapital × initial_pct/100
/ buyPrice) / lotSize) × lotSize` with `lotSize = 100`.  Used only to
compare against the code's `computeShares`. -/
def specSizePosition (availableCapital initial_pct buyPrice : ℚ) : ℤ :=
  ⌊((⌊availableCapital * initial_pct / 100 / buyPrice⌋ : ℤ) : ℚ) / 100⌋ * 100

/-- Floors interact with division by the positive constant 100:
`⌊x / 100⌋` equals the Euclidean division of `⌊x⌋` by 100. -/
lemma floor_div_hundred (x : ℚ) : ⌊x / 100⌋ = ⌊x⌋ / 100 := by
  have hle : (⌊x / 100⌋ : ℚ) ≤ x / 100 := Int.floor_le _
  have hlt : x / 100 < ⌊x / 100⌋ + 1 := Int.lt_floor_add_one _
  have h1 : ((100 * ⌊x / 100⌋ : ℤ) : ℚ) ≤ x := by push_cast; linarith
  have h2 : 100 * ⌊x / 100⌋ ≤ ⌊x⌋ := Int.le_floor.2 h1
  have h3 : (⌊x⌋ : ℚ) ≤ x := Int.floor_le x
  have h4 : (⌊x⌋ : ℚ) < ((100 * (⌊x / 100⌋ + 1) : ℤ) : ℚ) := by push_cast; linarith
  have h5 : ⌊x⌋ < 100 * (⌊x / 100⌋ + 1) := by exact_mod_cast h4
  omega

/-- The code's single-floor rounding agrees with the spec's
double-floor formula on every input. -/
lemma floor_rawShares_eq_spec (x : ℚ) :
    ⌊x / 100⌋ * 100 = ⌊((⌊x⌋ : ℤ) : ℚ) / 100⌋ * 100 := by
  have h1 : ⌊x / 100⌋ = ⌊x⌋ / 100 := floor_div_hundred x
  have h2 : ⌊((⌊x⌋ : ℤ) : ℚ) / 100⌋ = ⌊((⌊x⌋ : ℤ) : ℚ)⌋ / 100 :=
    floor_div_hundred _
  rw [h1, h2, Int.floor_intCast]

end AlphaPredator

namespace AlphaPredator

/-- **C1.** For every `availableCapital > 0`, `buyPrice > 0` and any
`initial_pct`, the `suggestedShares` computed property equals the
spec's `sizePosition` formula
`floor(floor(availableCapital × initial_pct/100 / buyPrice) / lotSize) × lotSize`
with `lotSize = 100`: the missing inner `Math.floor` in the code does
not change the result. -/
theorem suggestedShares_eq_specSizePosition
    (availableCapital buyPrice initial_pct : ℚ) (stock : Stock)
    (hA : 0 < availableCapital) (hB : 0 < buyPrice)
    (hpct : resolvedPct stock = initial_pct)
    (hbp : effectiveBuyPrice stock = buyPrice) :
    suggestedShares availableCapital stock =
      specSizePosition availableCapital initial_pct buyPrice := by
  unfold suggestedShares computeShares specSizePosition
  rw [hpct, hbp]
  rw [if_neg (by push_neg; exact ⟨hB, hA⟩)]
  exact floor_rawShares_eq_spec _

/-- The stock record used in the concrete C1 instance. -/
def stockC1 : Stock :=
  ⟨23.5, none, none, some ⟨20, "score>=85", 40⟩⟩

/-- Concrete instance for C1: `availableCapital = 100000`,
`buyPrice = 23.5`, `initial_pct = 20` yields 800 shares, and code and
spec formula agree there. -/
theorem suggestedShares_eq_specSizePosition_witness :
    (0 : ℚ) < 100000 ∧ (0 : ℚ) < 23.5 ∧
      suggestedShares 100000 stockC1 = specSizePosition 100000 20 23.5 ∧
      suggestedShares 100000 stockC1 = 800 := by
  have hpct : resolvedPct stockC1 = 20 := by norm_num [stockC1, resolvedPct, jsOr]
  have hbp : effectiveBuyPrice stockC1 = 23.5 := rfl
  have h8 : ⌊(100000 : ℚ) * 20 / 100 / 23.5 / 100⌋ = 8 := by
    rw [Int.floor_eq_iff]
    norm_num
  refine ⟨by norm_num, by norm_num,
    suggestedShares_eq_specSizePosition 100000 23.5 20 stockC1
      (by norm_num) (by norm_num) hpct hbp, ?_⟩
  show computeShares 100000 (resolvedPct stockC1) (effectiveBuyPrice stockC1) = 800
  rw [hpct, hbp]
  unfold computeShares
  rw [if_neg (by norm_num)]
  show ⌊(100000 : ℚ) * 20 / 100 / 23.5 / 100⌋ * 100 = 800
  rw [h8]
  norm_num

/-- The stock record used in the C2 counterexample. -/
def stockC2 : Stock := ⟨1, some 1, none, some ⟨20, "score>=85", 40⟩⟩

/-- **C2 counterexample.** The claim quantifies over *every*
`availableCapital`, but at `availableCapital = -1` (buy price 1,
`initial_pct = 20`) the code returns 0 shares and
`0 × buyPrice ≤ availableCapital` is false, so the claimed bound
`suggestedShares × buyPrice ≤ availableCapital` fails. -/
theorem suggestedShares_capital_bound_counterexample :
    suggestedShares (-1) stockC2 = 0 ∧
      ¬ ((suggestedShares (-1) stockC2 : ℚ) * effectiveBuyPrice stockC2 ≤ -1) := by
  have h0 : suggestedShares (-1) stockC2 = 0 := by
    unfold suggestedShares computeShares
    rw [if_pos (Or.inr (by norm_num))]
  refine ⟨h0, ?_⟩
  rw [h0]
  norm_num

/-- **C2 (amended).** For every `availableCapital ≥ 0`, every buy
price, and every resolved `initial_pct` in `[0, 100]`, the computed
`suggestedShares` is a non-negative multiple of 100 and
`suggestedShares × buyPrice ≤ availableCapital × initial_pct/100 ≤
availableCapital` (the original claim's unrestricted `availableCapital`
fails for negative capital, where shares resolve to 0). -/
theorem suggestedShares_bounds (availableCapital : ℚ) (stock : Stock)
    (hA : 0 ≤ availableCapital) (hp0 : 0 ≤ resolvedPct stock)
    (hp100 : resolvedPct stock ≤ 100) :
    (100 : ℤ) ∣ suggestedShares availableCapital stock ∧
      0 ≤ suggestedShares availableCapital stock ∧
      (suggestedShares availableCapital stock : ℚ) * effectiveBuyPrice stock ≤
        availableCapital * resolvedPct stock / 100 ∧
      availableCapital * resolvedPct stock / 100 ≤ availableCapital := by
  set p := resolvedPct stock with hp
  set B := effectiveBuyPrice stock with hBdef
  have hlast : availableCapital * p / 100 ≤ availableCapital := by
    have h1 : availableCapital * p ≤ availableCapital * 100 :=
      mul_le_mul_of_nonneg_left hp100 hA
    linarith
  unfold suggestedShares computeShares
  rw [← hp, ← hBdef]
  by_cases hg : B ≤ 0 ∨ availableCapital ≤ 0
  · rw [if_pos hg]
    refine ⟨dvd_zero 100, le_refl 0, ?_, hlast⟩
    have : (0 : ℚ) ≤ availableCapital * p / 100 :=
      div_nonneg (mul_nonneg hA hp0) (by norm_num)
    simpa using this
  · rw [if_neg hg]
    push_neg at hg
    obtain ⟨hB, hApos⟩ := hg
    set x := availableCapital * p / 100 / B with hx
    have hx0 : 0 ≤ x :=
      div_nonneg (div_nonneg (mul_nonneg hA hp0) (by norm_num)) hB.le
    have hfl : (0 : ℤ) ≤ ⌊x / 100⌋ :=
      Int.floor_nonneg.2 (div_nonneg hx0 (by norm_num))
    refine ⟨dvd_mul_left 100 ⌊x / 100⌋, mul_nonneg hfl (by norm_num), ?_, hlast⟩
    have h1 : (⌊x / 100⌋ : ℚ) ≤ x / 100 := Int.floor_le _
    have h2 : ((⌊x / 100⌋ * 100 : ℤ) : ℚ) ≤ x := by push_cast; linarith
    have h3 : ((⌊x / 100⌋ * 100 : ℤ) : ℚ) * B ≤ x * B :=
      mul_le_mul_of_nonneg_right h2 hB.le
    have h4 : x * B = availableCapital * p / 100 := by
      rw [hx]
      field_simp
      ring
    rw [h4] at h3
    exact h3

/-- The stock record used in the C2 witness. -/
def stockC2w : Stock := ⟨10, none, none, none⟩

/-- Witness for the amended C2 at `availableCapital = 100000` and a
stock whose effective buy price is 10 and resolved percentage the
default 20. -/
theorem suggestedShares_bounds_witness :
    (0 : ℚ) ≤ 100000 ∧ 0 ≤ resolvedPct stockC2w ∧ resolvedPct stockC2w ≤ 100 ∧
      ((100 : ℤ) ∣ suggestedShares 100000 stockC2w ∧
        0 ≤ suggestedShares 100000 stockC2w ∧
        (suggestedShares 100000 stockC2w : ℚ) * effectiveBuyPrice stockC2w ≤
          100000 * resolvedPct stockC2w / 100 ∧
        100000 * resolvedPct stockC2w / 100 ≤ 100000) :=
  ⟨by norm_num, by norm_num [stockC2w, resolvedPct, jsOr],
    by norm_num [stockC2w, resolvedPct, jsOr],
    suggestedShares_bounds 100000 stockC2w (by norm_num)
      (by norm_num [stockC2w, resolvedPct, jsOr])
      (by norm_num [stockC2w, resolvedPct, jsOr])⟩

/-- **C3.** Zero or negative available capital, and a non-positive (or
absent, which JS truthiness collapses to `current_price`, itself
possibly 0) effective buy price, make `suggestedShares` return 0; the
computation is a total function, so no error is raised. -/
theorem suggestedShares_zero_of_nonpositive (availableCapital : ℚ) (stock : Stock)
    (h : availableCapital ≤ 0 ∨ effectiveBuyPrice stock ≤ 0) :
    suggestedShares availableCapital stock = 0 := by
  unfold suggestedShares computeShares
  rw [if_pos h.symm]

/-- Witness for C3 at `availableCapital = -5` with a stock of price 10. -/
theorem suggestedShares_zero_of_nonpositive_witness :
    ((-5 : ℚ) ≤ 0 ∨ effectiveBuyPrice stockC2w ≤ 0) ∧
      suggestedShares (-5) stockC2w = 0 :=
  ⟨Or.inl (by norm_num),
    suggestedShares_zero_of_nonpositive (-5) stockC2w (Or.inl (by norm_num))⟩

/-- **C8.** In both `suggestedShares` and `suggestedAmount`, a
`buy_price` that is `undefined` (`none`) or exactly 0 is treated as
absent: JS truthiness (`stock.buy_price || stock.current_price`) makes
`current_price` the effective buy price. -/
theorem buyPrice_falsy_falls_back_to_current_price
    (availableCapital : ℚ) (stock : Stock)
    (h : stock.buy_price = none ∨ stock.buy_price = some 0) :
    effectiveBuyPrice stock = stock.current_price ∧
      suggestedShares availableCapital stock =
        computeShares availableCapital (resolvedPct stock) stock.current_price ∧
      suggestedAmount availableCapital stock =
        (suggestedShares availableCapital stock : ℚ) * stock.current_price := by
  have heff : effectiveBuyPrice stock = stock.current_price := by
    rcases h with h | h <;> simp [effectiveBuyPrice, jsOr, h]
  refine ⟨heff, ?_, ?_⟩
  · unfold suggestedShares
    rw [heff]
  · unfold suggestedAmount jsOrNum
    rw [heff]
    by_cases hc : stock.current_price = 0
    · rw [if_pos hc, hc]
    · rw [if_neg hc]

/-- The stock record used in the C8 witness: `buy_price` is exactly 0,
`current_price` is 10. -/
def stockC8 : Stock := ⟨10, some 0, none, none⟩

/-- Witness for C8: with `buy_price = 0` and `current_price = 10`, the
effective buy price is 10. -/
theorem buyPrice_falsy_falls_back_to_current_price_witness :
    (stockC8.buy_price = none ∨ stockC8.buy_price = some 0) ∧
      (effectiveBuyPrice stockC8 = stockC8.current_price ∧
        suggestedShares 100000 stockC8 =
          computeShares 100000 (resolvedPct stockC8) stockC8.current_price ∧
        suggestedAmount 100000 stockC8 =
          (suggestedShares 100000 stockC8 : ℚ) * stockC8.current_price) :=
  ⟨Or.inr rfl,
    buyPrice_falsy_falls_back_to_current_price 100000 stockC8 (Or.inr rfl)⟩

/-- `getScoreColor` (`StockRecommendation.vue` lines 81–85): green for
scores ≥ 80, yellow for ≥ 60, red otherwise. -/
def getScoreColor (score : ℚ) : String :=
  if score ≥ 80 then "#22c55e"
  else if score ≥ 60 then "#eab308"
  else "#ef4444"

/-- **C4.** Score classification via `getScoreColor` uses the default
cutoffs: the buy colour `#22c55e` iff `score ≥ 80`, the hold colour
`#eab308` iff `60 ≤ score < 80`, the avoid colour `#ef4444` iff
`score < 60`; in particular 85 ↦ buy, 65 ↦ hold, 40 ↦ avoid. -/
theorem getScoreColor_classification :
    (∀ score : ℚ,
      (getScoreColor score = "#22c55e" ↔ 80 ≤ score) ∧
        (getScoreColor score = "#eab308" ↔ 60 ≤ score ∧ score < 80) ∧
        (getScoreColor score = "#ef4444" ↔ score < 60)) ∧
      getScoreColor 85 = "#22c55e" ∧
      getScoreColor 65 = "#eab308" ∧
      getScoreColor 40 = "#ef4444" := by
  have hmain : ∀ score : ℚ,
      (getScoreColor score = "#22c55e" ↔ 80 ≤ score) ∧
        (getScoreColor score = "#eab308" ↔ 60 ≤ score ∧ score < 80) ∧
        (getScoreColor score = "#ef4444" ↔ score < 60) := by
    intro score
    unfold getScoreColor
    split_ifs with h1 h2
    · refine ⟨⟨fun _ => h1, fun _ => rfl⟩,
        ⟨fun h => absurd h (by decide), ?_⟩,
        ⟨fun h => absurd h (by decide), fun hlt => ?_⟩⟩
      · rintro ⟨-, hlt⟩
        exact absurd h1 (not_le.2 hlt)
      · linarith
    · refine ⟨⟨fun h => absurd h (by decide), fun h80 => absurd h80 h1⟩,
        ⟨fun _ => ⟨h2, lt_of_not_le h1⟩, fun _ => rfl⟩,
        ⟨fun h => absurd h (by decide), fun hlt => ?_⟩⟩
      linarith
    · refine ⟨⟨fun h => absurd h (by decide), fun h80 => absurd h80 h1⟩,
        ⟨fun h => absurd h (by decide), ?_⟩,
        ⟨fun _ => lt_of_not_le h2, fun _ => rfl⟩⟩
      rintro ⟨h60, -⟩
      exact absurd h60 h2
  refine ⟨hmain, ?_, ?_, ?_⟩
  · exact (hmain 85).1.2 (by norm_num)
  · exact (hmain 65).2.1.2 (by norm_num)
  · exact (hmain 40).2.2.2 (by norm_num)

/-- `getSignalClass` (`StockRecommendation.vue` lines 75–79). -/
def getSignalClass (signal : String) : String :=
  if signal = "买入" then "signal-buy"
  else if signal = "回避" then "signal-sell"
  else "signal-hold"

/-- **C9.** `getSignalClass` is total with a hold default: it returns
`signal-buy` iff the signal is exactly `买入`, `signal-sell` iff it is
exactly `回避`, and `signal-hold` for every other string, so every
signal value receives one of the three styles. -/
theorem getSignalClass_total :
    ∀ signal : String,
      (getSignalClass signal = "signal-buy" ↔ signal = "买入") ∧
        (getSignalClass signal = "signal-sell" ↔ signal = "回避") ∧
        (getSignalClass signal = "signal-hold" ↔
          (¬ signal = "买入" ∧ ¬ signal = "回避")) ∧
        (getSignalClass signal = "signal-buy" ∨
          getSignalClass signal = "signal-sell" ∨
          getSignalClass signal = "signal-hold") := by
  intro signal
  unfold getSignalClass
  split_ifs with h1 h2
  · exact ⟨⟨fun _ => h1, fun _ => rfl⟩,
      ⟨fun h => absurd h (by decide), fun h => absurd (h1.symm.trans h) (by decide)⟩,
      ⟨fun h => absurd h (by decide), fun ⟨hb, _⟩ => absurd h1 hb⟩,
      Or.inl rfl⟩
  · exact ⟨⟨fun h => absurd h (by decide), fun h => absurd h h1⟩,
      ⟨fun _ => h2, fun _ => rfl⟩,
      ⟨fun h => absurd h (by decide), fun ⟨_, hs⟩ => absurd h2 hs⟩,
      Or.inr (Or.inl rfl)⟩
  · exact ⟨⟨fun h => absurd h (by decide), fun h => absurd h h1⟩,
      ⟨fun h => absurd h (by decide), fun h => absurd h h2⟩,
      ⟨fun _ => ⟨h1, h2⟩, fun _ => rfl⟩,
      Or.inr (Or.inr rfl)⟩

end AlphaPredator

namespace AlphaPredator

/-! ### SectorCard.vue -/

/-- `getChangeClass` (`SectorCard.vue` lines 31–35): positive changes
are styled up, negative down, zero gets the neutral empty class. -/
def getChangeClass (change : ℚ) : String :=
  if change > 0 then "change-up"
  else if change < 0 then "change-down"
  else ""

/-- Two-digit zero padding of a remainder below 100, as produced by
decimal printing of the fractional part. -/
def pad2 (n : ℕ) : String :=
  if n < 10 then "0" ++ toString n else toString n

/-- JavaScript `Number.prototype.toFixed(2)` on a non-negative number:
per ECMA-262, the integer `n` minimizing `|n / 100 - q|` (ties to the
larger `n`, i.e. round half up), printed with two decimals. -/
def toFixed2Nonneg (q : ℚ) : String :=
  let n : ℕ := (⌊q * 100 + 1 / 2⌋).toNat
  toString (n / 100) ++ "." ++ pad2 (n % 100)

/-- JavaScript `toFixed(2)`: ECMA-262 first emits `-` for a negative
number and formats its absolute value. -/
def toFixed2 (q : ℚ) : String :=
  if q < 0 then "-" ++ toFixed2Nonneg (-q) else toFixed2Nonneg q

/-- `formatMoneyFlow` (`SectorCard.vue` lines 37–40): a `+` prefix for
`flow >= 0`, then the flow fixed to two decimals and the `亿` suffix. -/
def formatMoneyFlow (flow : ℚ) : String :=
  if flow ≥ 0 then "+" ++ toFixed2 flow ++ "亿"
  else toFixed2 flow ++ "亿"

/-- The inline change prefix of the card body
(`SectorCard.vue` line 60): `sector.change_pct > 0 ? '+' : ''`. -/
def changePctPrefix (change_pct : ℚ) : String :=
  if change_pct > 0 then "+" else ""

lemma string_data_append (a b : String) : (a ++ b).data = a.data ++ b.data := rfl

/-- **C10.** `formatMoneyFlow` renders a leading `+` exactly when
`flow ≥ 0`, so a zero money flow renders `+0.00亿`; meanwhile
`getChangeClass 0` is the neutral empty class and a zero `change_pct`
gets no `+` prefix: zero is positive to the money-flow formatter but
neutral to the change formatter. -/
theorem formatMoneyFlow_zero_sign_contrast :
    formatMoneyFlow 0 = "+0.00亿" ∧
      (∀ flow : ℚ, (formatMoneyFlow flow).data.head? = some '+' ↔ 0 ≤ flow) ∧
      getChangeClass 0 = "" ∧
      changePctPrefix 0 = "" := by
  have hf0 : ⌊(0 : ℚ) * 100 + 1 / 2⌋ = 0 := by
    rw [Int.floor_eq_iff]
    norm_num
  refine ⟨?_, ?_, ?_, ?_⟩
  · unfold formatMoneyFlow toFixed2 toFixed2Nonneg
    rw [if_pos (le_refl (0 : ℚ)), if_neg (lt_irrefl (0 : ℚ)), hf0]
    rfl
  · intro flow
    by_cases h : (0 : ℚ) ≤ flow
    · unfold formatMoneyFlow
      rw [if_pos h]
      simp [string_data_append, h]
    · unfold formatMoneyFlow toFixed2
      rw [if_neg h, if_pos (not_le.1 h)]
      simp [string_data_append, h]
  · unfold getChangeClass
    rw [if_neg (lt_irrefl (0 : ℚ)), if_neg (lt_irrefl (0 : ℚ))]
  · unfold changePctPrefix
    rw [if_neg (lt_irrefl (0 : ℚ))]

end AlphaPredator

namespace AlphaPredator

/-! ### Spec-modelled backend: PositionSizer and CompositeScorer -/

/-- The recommendation signal labels (spec §3). -/
inductive Signal where
  | buy
  | hold
  | avoid
deriving DecidableEq, Repr

/-- Modelled from the spec: `CompositeScorer.classify` (§4.3) is not
under src/ (the frontend only styles its output); with the default
thresholds it maps a score to buy when ≥ 80, hold when 60–79, avoid
when < 60. -/
def classify (score : ℚ) : Signal :=
  if score ≥ 80 then Signal.buy
  else if score ≥ 60 then Signal.hold
  else Signal.avoid

/-- The price-relevant fields of a `Recommendation` (spec §3). -/
structure Recommendation where
  signal : Signal
  buy_price : ℚ
  sell_price : ℚ
  stop_loss_price : ℚ
deriving DecidableEq, Repr

/-- Modelled from the spec: `PositionSizer.computePrices` (§4.4) is
not under src/ (the `price-table` template only displays its output);
the buy/sell/stop triple offsets the symbol price by configured
percentage bands scaled by volatility. -/
def computePrices (price volatility sellBand stopBand : ℚ) : ℚ × ℚ × ℚ :=
  (price,
    price * (1 + sellBand * volatility / 100),
    price * (1 - stopBand * volatility / 100))

/-- Modelled from the spec: assembling a `Recommendation` from a
composite score and the sizer's price triple (§4.3–§4.4). -/
def buildRecommendation (score price volatility sellBand stopBand : ℚ) :
    Recommendation :=
  let prices := computePrices price volatility sellBand stopBand
  { signal := classify score
    buy_price := prices.1
    sell_price := prices.2.1
    stop_loss_price := prices.2.2 }

/-- **C5.** For every recommendation with `signal = buy` (indeed for
any signal) built from a positive price, a non-negative scaled sell
band and a positive scaled stop band, the price triple satisfies
`stop_loss_price < buy_price ≤ sell_price`. -/
theorem buy_recommendation_price_invariant
    (score price volatility sellBand stopBand : ℚ)
    (hprice : 0 < price) (hsell : 0 ≤ sellBand * volatility)
    (hstop : 0 < stopBand * volatility)
    (hsig : (buildRecommendation score price volatility sellBand stopBand).signal =
      Signal.buy) :
    (buildRecommendation score price volatility sellBand stopBand).stop_loss_price <
        (buildRecommendation score price volatility sellBand stopBand).buy_price ∧
      (buildRecommendation score price volatility sellBand stopBand).buy_price ≤
        (buildRecommendation score price volatility sellBand stopBand).sell_price := by
  unfold buildRecommendation computePrices
  constructor
  · have h : price * (1 - stopBand * volatility / 100) < price * 1 := by
      apply mul_lt_mul_of_pos_left _ hprice
      linarith
    simpa using h
  · have h : price * 1 ≤ price * (1 + sellBand * volatility / 100) := by
      apply mul_le_mul_of_nonneg_left _ hprice.le
      linarith
    simpa using h

/-- Witness for C5: score 85 (a buy signal), price 10, volatility 2,
sell band 3, stop band 2. -/
theorem buy_recommendation_price_invariant_witness :
    (0 : ℚ) < 10 ∧ (0 : ℚ) ≤ 3 * 2 ∧ (0 : ℚ) < 2 * 2 ∧
      (buildRecommendation 85 10 2 3 2).signal = Signal.buy ∧
      ((buildRecommendation 85 10 2 3 2).stop_loss_price <
          (buildRecommendation 85 10 2 3 2).buy_price ∧
        (buildRecommendation 85 10 2 3 2).buy_price ≤
          (buildRecommendation 85 10 2 3 2).sell_price) :=
  ⟨by norm_num, by norm_num, by norm_num,
    by norm_num [buildRecommendation, classify],
    buy_recommendation_price_invariant 85 10 2 3 2
      (by norm_num) (by norm_num) (by norm_num)
      (by norm_num [buildRecommendation, classify])⟩

end AlphaPredator

namespace AlphaPredator

/-! ### SettingsPanel.vue and the spec-modelled config endpoint -/

/-- One entry of the `/api/config/providers` response, as held in the
`providers` ref of `SettingsPanel.vue` (line 14). -/
structure ProviderInfo where
  id : String
  name : String
  configured : Bool
deriving DecidableEq, Repr

/-- A provider as held by the backend configuration store, including
the stored credential value. -/
structure StoredProvider where
  id : String
  name : String
  api_key : Option String
deriving DecidableEq, Repr

/-- The backend configuration store. -/
structure ConfigStore where
  providers : List StoredProvider
  current : String
deriving DecidableEq, Repr

/-- Modelled from the spec: the backend `/api/config/providers`
endpoint consumed by `loadProviders` is not under src/; per §6 the
ConfigStore interface is "read-only access to credentials presence
(not values)", so the response carries each provider's id, name and
configured flag (key presence) only. -/
def providersEndpoint (c : ConfigStore) : List ProviderInfo × String :=
  (c.providers.map (fun p => ⟨p.id, p.name, p.api_key.isSome⟩), c.current)

/-- JS truthiness of a `localStorage.getItem` result: `null` and the
empty string are falsy (`!!savedTushare`, `SettingsPanel.vue` line 32). -/
def jsTruthyStr (x : Option String) : Bool :=
  match x with
  | none => false
  | some s => !(s == "")

/-- The component state populated by `loadProviders`. -/
structure SettingsState where
  providers : List ProviderInfo
  currentProvider : String
  tushareConfigured : Bool
deriving DecidableEq, Repr

/-- `loadProviders` (`SettingsPanel.vue` lines 21–33): stores the
endpoint's provider list and current id, and the Tushare key presence
flag. -/
def loadProviders (c : ConfigStore) (savedTushare : Option String) :
    SettingsState :=
  let resp := providersEndpoint c
  { providers := resp.1
    currentProvider := resp.2
    tushareConfigured := jsTruthyStr savedTushare }

/-- `isSelectedProviderConfigured` (`SettingsPanel.vue` lines 36–39):
`providers.value.find(p => p.id === selectedProvider.value)?.configured ?? false`. -/
def isSelectedProviderConfigured (st : SettingsState) (selected : String) : Bool :=
  match st.providers.find? (fun p => p.id == selected) with
  | some p => p.configured
  | none => false

/-- `apiKeyPlaceholder` (`SettingsPanel.vue` lines 42–47): mask
bullets when the selected provider is configured, otherwise a prompt. -/
def apiKeyPlaceholder (st : SettingsState) (selected : String) : String :=
  if isSelectedProviderConfigured st selected then
    "••••••••••••（已配置，输入新 Key 可覆盖）"
  else "输入你的 API Key"

/-- The provider status list rendered by the template
(`SettingsPanel.vue` lines 160–174): per provider its name, a ✓/✗
presence marker, and whether it is the active provider. -/
def renderedProviderStatus (st : SettingsState) : List (String × String × Bool) :=
  st.providers.map
    (fun p => (p.name, if p.configured then "✓" else "✗", p.id == st.currentProvider))

/-- **C6.** The settings UI accesses only credential presence, never
credential values: two backend configurations agreeing on each
provider's id, name and key presence (and on the Tushare key
presence) produce identical `loadProviders` state, rendered provider
status and `apiKeyPlaceholder`; and the placeholder is always one of
two fixed strings (mask bullets when configured), never a stored key
value. -/
theorem settings_credential_noninterference
    (c₁ c₂ : ConfigStore) (t₁ t₂ : Option String) (selected : String)
    (hp : c₁.providers.map (fun p => (p.id, p.name, p.api_key.isSome)) =
      c₂.providers.map (fun p => (p.id, p.name, p.api_key.isSome)))
    (hc : c₁.current = c₂.current)
    (ht : jsTruthyStr t₁ = jsTruthyStr t₂) :
    loadProviders c₁ t₁ = loadProviders c₂ t₂ ∧
      renderedProviderStatus (loadProviders c₁ t₁) =
        renderedProviderStatus (loadProviders c₂ t₂) ∧
      apiKeyPlaceholder (loadProviders c₁ t₁) selected =
        apiKeyPlaceholder (loadProviders c₂ t₂) selected ∧
      (apiKeyPlaceholder (loadProviders c₁ t₁) selected =
          "••••••••••••（已配置，输入新 Key 可覆盖）" ∨
        apiKeyPlaceholder (loadProviders c₁ t₁) selected = "输入你的 API Key") := by
  have key : c₁.providers.map (fun p => (⟨p.id, p.name, p.api_key.isSome⟩ : ProviderInfo)) =
      c₂.providers.map (fun p => (⟨p.id, p.name, p.api_key.isSome⟩ : ProviderInfo)) := by
    have h2 := congrArg
      (List.map (fun t : String × String × Bool => (⟨t.1, t.2.1, t.2.2⟩ : ProviderInfo))) hp
    simpa [List.map_map, Function.comp] using h2
  have heq : loadProviders c₁ t₁ = loadProviders c₂ t₂ := by
    unfold loadProviders providersEndpoint
    rw [key, hc, ht]
  refine ⟨heq, by rw [heq], by rw [heq], ?_⟩
  by_cases hb : isSelectedProviderConfigured (loadProviders c₁ t₁) selected
  · exact Or.inl (by rw [apiKeyPlaceholder, if_pos hb])
  · exact Or.inr (by rw [apiKeyPlaceholder, if_neg hb])

/-- First backend configuration for the C6 witness: provider `qwen`
configured with one secret key. -/
def configC6a : ConfigStore :=
  ⟨[⟨"qwen", "阿里通义千问", some "sk-secret-A"⟩], "qwen"⟩

/-- Second backend configuration for the C6 witness: same presence,
different stored key value. -/
def configC6b : ConfigStore :=
  ⟨[⟨"qwen", "阿里通义千问", some "sk-other-B"⟩], "qwen"⟩

/-- Witness for C6: the two configurations differ only in the stored
key value and yield identical settings UI output. -/
theorem settings_credential_noninterference_witness :
    (configC6a.providers.map (fun p => (p.id, p.name, p.api_key.isSome)) =
        configC6b.providers.map (fun p => (p.id, p.name, p.api_key.isSome)) ∧
      configC6a.current = configC6b.current ∧
      jsTruthyStr none = jsTruthyStr none) ∧
      (loadProviders configC6a none = loadProviders configC6b none ∧
        renderedProviderStatus (loadProviders configC6a none) =
          renderedProviderStatus (loadProviders configC6b none) ∧
        apiKeyPlaceholder (loadProviders configC6a none) "qwen" =
          apiKeyPlaceholder (loadProviders configC6b none) "qwen" ∧
        (apiKeyPlaceholder (loadProviders configC6a none) "qwen" =
            "••••••••••••（已配置，输入新 Key 可覆盖）" ∨
          apiKeyPlaceholder (loadProviders configC6a none) "qwen" = "输入你的 API Key")) :=
  ⟨⟨rfl, rfl, rfl⟩,
    settings_credential_noninterference configC6a configC6b none none "qwen"
      rfl rfl rfl⟩

end AlphaPredator

namespace AlphaPredator

/-! ### Spec-modelled rule-engine fallback -/

/-- Signal direction (spec §3, SignalSet). -/
inductive Direction where
  | bullish
  | bearish
  | neutral
deriving DecidableEq, Repr

/-- One entry of a `SignalSet` (spec §3): name, value, direction,
strength and confidence. -/
structure SignalEntry where
  name : String
  value : ℚ
  direction : Direction
  strength : ℚ
  confidence : ℚ
deriving DecidableEq, Repr

/-- A `SignalSet` as the list of its entries. -/
abbrev SignalSet := List SignalEntry

/-- Modelled from the spec: the rule-engine fallback (§4.5) is not
under src/; it "derives `reasons[]`/`risk_factors[]` from the
SignalSet's discrete tags via fixed templates". Reasons come from the
bullish tags. -/
def ruleEngineReasons (s : SignalSet) : List String :=
  (s.filter (fun e => e.direction == Direction.bullish)).map
    (fun e => "信号 " ++ e.name ++ " 看多")

/-- Modelled from the spec: risk factors come from the bearish tags
via a fixed template (§4.5). -/
def ruleEngineRiskFactors (s : SignalSet) : List String :=
  (s.filter (fun e => e.direction == Direction.bearish)).map
    (fun e => "风险：" ++ e.name ++ " 走弱")

/-- The ambient network environment: what the AI reasoning backend
would answer for a given prompt.  The rule-engine fallback never
consults it. -/
structure NetworkEnv where
  complete : String → Option String

/-- Modelled from the spec: one run of the orchestrator's rule-engine
fallback path (§4.5), given the ambient network environment — "no
network call, always available". -/
def runRuleEngineFallback (_env : NetworkEnv) (s : SignalSet) :
    List String × List String :=
  (ruleEngineReasons s, ruleEngineRiskFactors s)

/-- **C7.** The rule-engine fallback is deterministic: two runs on the
same SignalSet — even under different network environments, since no
network call is involved — yield identical `reasons[]`/`risk_factors[]`
output. -/
theorem ruleEngine_fallback_deterministic :
    ∀ (s : SignalSet) (env₁ env₂ : NetworkEnv),
      runRuleEngineFallback env₁ s = runRuleEngineFallback env₂ s :=
  fun _ _ _ => rfl

end AlphaPredator
